import Mathlib

/-!
Verification of the scheduler, context-switch and IRQ-dispatch subsystem of a
bare-metal AArch64 kernel for the Raspberry Pi 4.

The definitions below are a shallow embedding of the Rust sources:
  * `kernel/src/aarch64/exception.rs`  (the `ExceptionContext` frame),
  * `kernel/src/scheduler.rs`          (`ThreadQueue`, `store_context`,
                                        `reschedule_from_context`),
  * `kernel/src/thread.rs`             (`Thread`, `make_context`, `sleep`,
                                        `reschedule`),
  * `kernel/src/drivers/gicv2.rs`      (`register_handler`,
                                        `handle_pending_irqs`).

Machine integers (`u64`, `usize`) are embedded as `Nat`, with an explicit
`% 2 ^ 64` at the one place where the code performs arithmetic that could
wrap (the stack-pointer addition in `make_context`).  Rust panics are
embedded as `Except.error` carrying the panic message; Rust's `%` operator,
which panics on a zero divisor, is embedded by `rustRem`.  The per-call
reseeded PRNG draw `SmallRng::seed_from_u64(uptime_ms).next_u64()` is an
input of the environment and is passed to each operation as an explicit
`rand : Nat` parameter.
-/

/-- Embedding of `ExceptionContext` from `aarch64/exception.rs`: 30 general
purpose registers, link register, `elr_el1`, `spsr_el1`, `esr_el1`,
`sp_el0` and the reserved alignment slot `_res_sp`. -/
structure ExceptionContext where
  gpr : List Nat
  lr : Nat
  elr_el1 : Nat
  spsr_el1 : Nat
  esr_el1 : Nat
  sp_el0 : Nat
  _res_sp : Nat
deriving Repr, DecidableEq

/-- Embedding of `Thread` from `thread.rs`: a PID, the saved exception
frame, and the base address of the thread's own 8 KiB stack. -/
structure Thread where
  pid : Nat
  context : ExceptionContext
  original_stack : Nat
deriving Repr, DecidableEq

/-- Embedding of `store_context(s, d)` from `scheduler.rs`: the body assigns
`d.elr_el1`, `d.esr_el1`, `d.gpr`, `d.lr`, `d.sp_el0`, `d.spsr_el1` from the
corresponding fields of `s`; `d._res_sp` is not assigned. -/
def storeContext (s d : ExceptionContext) : ExceptionContext :=
  { d with
    elr_el1 := s.elr_el1
    esr_el1 := s.esr_el1
    gpr := s.gpr
    lr := s.lr
    sp_el0 := s.sp_el0
    spsr_el1 := s.spsr_el1 }

/-- Effect of `store_context` on its two `&mut` arguments `(s, d)`: every
assignment in the body writes a field of `d`; `s` is only read. -/
def storeContextMut (sd : ExceptionContext × ExceptionContext) :
    ExceptionContext × ExceptionContext :=
  (sd.1, storeContext sd.1 sd.2)

/-- The scheduler-relevant subset of an exception frame: `elr_el1`,
`esr_el1`, `spsr_el1`, the 30 GPRs, `lr` and `sp_el0` (everything
`store_context` copies; `_res_sp` is excluded). -/
def frameSubset (c : ExceptionContext) : Nat × Nat × Nat × List Nat × Nat × Nat :=
  (c.elr_el1, c.esr_el1, c.spsr_el1, c.gpr, c.lr, c.sp_el0)

/-- `STACK_SIZE` from `thread.rs`. -/
def STACK_SIZE : Nat := 8192

/-- Embedding of `Thread::make_context(entry_point)` from `thread.rs`.  The
heap allocation is external: its result, the low end of the fresh stack, is
the parameter `stackBase`.  The code computes
`sp_value = stack_pointer_low_end as u64 + 8192` in `u64` arithmetic, hence
the `% 2 ^ 64`. -/
def makeContext (entry_point stackBase : Nat) : ExceptionContext :=
  { gpr := List.replicate 30 0
    lr := entry_point
    elr_el1 := entry_point
    spsr_el1 := 0x364
    esr_el1 := 0
    _res_sp := 0
    sp_el0 := (stackBase + 8192) % 2 ^ 64 }

/-- Embedding of `Thread::new(entry_point)` from `thread.rs`.  The PID comes
from the global atomic counter; it is the parameter `pid`. -/
def threadNew (pid entry_point stackBase : Nat) : Thread :=
  { pid := pid
    context := makeContext entry_point stackBase
    original_stack := stackBase }

/-- Rust's `%` on `usize`: panics (here: `Except.error`) when the divisor is
zero, as in `(r.next_u64() as usize) % len` with `len = 0`. -/
def rustRem (a b : Nat) : Except String Nat :=
  if b = 0 then
    Except.error "attempt to calculate the remainder with a divisor of zero"
  else
    Except.ok (a % b)

/-- Embedding of `ThreadQueue::next` from `scheduler.rs`: draw `rand` from
the reseeded PRNG, compute `rand % len` with Rust `%` semantics, then scan
`threads.iter_mut().enumerate()` and return the element whose position
equals the remainder; fall through to `None`. -/
def queueNext (rand : Nat) (l : List Thread) : Except String (Option Thread) :=
  match rustRem rand l.length with
  | Except.error e => Except.error e
  | Except.ok r =>
      Except.ok ((l.enum.find? (fun tp => tp.fst == r)).map Prod.snd)

/-- `RUNNING[core].next().expect("No next thread found!")`: the `.expect`
call that both `reschedule` paths and `sleep` place on `next()`. -/
def queueNextExpect (rand : Nat) (l : List Thread) : Except String Thread :=
  match queueNext rand l with
  | Except.error e => Except.error e
  | Except.ok none => Except.error "No next thread found!"
  | Except.ok (some t) => Except.ok t

/-- Embedding of `ThreadQueue::add`: `push_back`. -/
def queueAdd (t : Thread) (l : List Thread) : List Thread :=
  l ++ [t]

/-- Embedding of `ThreadQueue::get_by_pid`: scan in order, return the first
thread whose PID matches. -/
def getByPid (pid : Nat) (l : List Thread) : Option Thread :=
  l.find? (fun t => t.pid == pid)

/-- The loop inside `ThreadQueue::remove`: iterate with indices and record
in `pos` the index of every match, so that the final value is the index of
the last match. -/
def lastIdxOf (pid : Nat) (l : List Thread) : Option Nat :=
  l.enum.foldl (fun pos it => if it.snd.pid == pid then some it.fst else pos) none

/-- Embedding of `ThreadQueue::remove(pid)`: if some position matched,
remove and return the element at that position, else return `None` leaving
the queue unchanged. -/
def queueRemove (pid : Nat) (l : List Thread) : Option Thread × List Thread :=
  match lastIdxOf pid l with
  | some i => (l.get? i, l.eraseIdx i)
  | none => (none, l)

/-- Mutation through the `&mut Thread` that `get_by_pid` lends: apply `f` to
the first thread in the queue whose PID matches, in place. -/
def updateFirstByPid (pid : Nat) (f : Thread → Thread) : List Thread → List Thread
  | [] => []
  | t :: ts => if t.pid == pid then f t :: ts else t :: updateFirstByPid pid f ts

/-- The kernel state the scheduler operations touch: the four per-core run
queues `RUNNING`, the global `SLEEPING` queue, and the four per-core
`CURRENT` PID slots. -/
structure KState where
  running : Fin 4 → List Thread
  sleeping : List Thread
  current : Fin 4 → Option Nat

/-- Embedding of `reschedule_from_context(_ec)` from `scheduler.rs`, run on
core `core` with PRNG draw `rand`.  If `CURRENT[core]` is `Some(p)`, the
live frame's scheduler subset is stored into `p`'s TCB (looked up by
`get_by_pid`; panic if absent); then `next()` picks the successor, the
current PID is updated, and the successor's saved frame is stored into the
live frame. -/
def rescheduleFromContext (core : Fin 4) (rand : Nat) (ec : ExceptionContext)
    (st : KState) : Except String (KState × ExceptionContext) :=
  match st.current core with
  | some p =>
      match getByPid p (st.running core) with
      | none => Except.error "[IRQ] Cannot find PID in RUNNING"
      | some _ =>
          let running1 := updateFirstByPid p
            (fun t => { t with context := storeContext ec t.context })
            (st.running core)
          match queueNextExpect rand running1 with
          | Except.error e => Except.error e
          | Except.ok nt =>
              Except.ok
                ({ st with
                    running := Function.update st.running core running1
                    current := Function.update st.current core (some nt.pid) },
                  storeContext nt.context ec)
  | none =>
      match queueNextExpect rand (st.running core) with
      | Except.error e => Except.error e
      | Except.ok nt =>
          Except.ok
            ({ st with current := Function.update st.current core (some nt.pid) },
              storeContext nt.context ec)

/-- The spsr update both `reschedule()` and `sleep()` perform on the calling
thread's saved frame before `__switch_to`: with `masked` the value of
`is_local_irq_masked()` at the call site, `int_not_masked = !masked`; if
set, `spsr_el1 |= 0x80`, else `spsr_el1 &= 0b11111111111111111111111101111111`. -/
def spsrIBitStore (masked : Bool) (c : ExceptionContext) : ExceptionContext :=
  if !masked then
    { c with spsr_el1 := c.spsr_el1 ||| 0x80 }
  else
    { c with spsr_el1 := c.spsr_el1 &&& 0b11111111111111111111111101111111 }

/-- Observable scheduler events of one `sleep()` call, in program order, to
express where each step happens relative to the others. -/
inductive SleepEv where
  | removeRun (pid : Nat)
  | selectNext (pid : Nat)
  | addSleep (pid : Nat)
  | setCurrent (pid : Nat)
  | switchTo (fromPid toPid : Nat)
deriving Repr, DecidableEq

/-- Embedding of `sleep()` from `thread.rs`, run on core `core` with PRNG
draw `rand` and `masked = is_local_irq_masked()`.  Program order: remove the
current thread from `RUNNING[core]` (`unwrap` panics if `CURRENT` is `None`
or the PID is absent), select the successor with `next().expect(..)`, update
the removed thread's `spsr_el1`, add it to `SLEEPING`, look it up there
(panic if absent), set `CURRENT[core]`, then `__switch_to`.  The returned
event list records that order. -/
def sleepModel (core : Fin 4) (rand : Nat) (masked : Bool) (st : KState) :
    Except String (KState × List SleepEv) :=
  match st.current core with
  | none => Except.error "called Option::unwrap on a None value"
  | some p =>
      match queueRemove p (st.running core) with
      | (none, _) => Except.error "called Option::unwrap on a None value"
      | (some myT, running1) =>
          match queueNextExpect rand running1 with
          | Except.error e => Except.error e
          | Except.ok nt =>
              let myT1 := { myT with context := spsrIBitStore masked myT.context }
              let sleeping1 := queueAdd myT1 st.sleeping
              match getByPid p sleeping1 with
              | none => Except.error "Cannot find PID in SLEEPING"
              | some _ =>
                  Except.ok
                    ({ running := Function.update st.running core running1
                       sleeping := sleeping1
                       current := Function.update st.current core (some nt.pid) },
                      [SleepEv.removeRun p, SleepEv.selectNext nt.pid,
                       SleepEv.addSleep p, SleepEv.setCurrent nt.pid,
                       SleepEv.switchTo p nt.pid])

/-- Embedding of `reschedule()` from `thread.rs`, run on core `core` with
PRNG draw `rand` and `masked = is_local_irq_masked()`.  Program order:
select the successor with `next().expect(..)` on the untouched queue, look
the current thread up by PID (panic if `CURRENT` is `None` or the PID is
absent), update its `spsr_el1` in place, set `CURRENT[core]`, then
`__switch_to`. -/
def rescheduleModel (core : Fin 4) (rand : Nat) (masked : Bool) (st : KState) :
    Except String KState :=
  match queueNextExpect rand (st.running core) with
  | Except.error e => Except.error e
  | Except.ok nt =>
      match st.current core with
      | none => Except.error "called Option::unwrap on a None value"
      | some p =>
          match getByPid p (st.running core) with
          | none => Except.error "Cannot find PID in RUNNING"
          | some _ =>
              let running1 := updateFirstByPid p
                (fun t => { t with context := spsrIBitStore masked t.context })
                (st.running core)
              Except.ok
                { st with
                    running := Function.update st.running core running1
                    current := Function.update st.current core (some nt.pid) }

/-- `GICv2::MAX_IRQ_NUMBER` from `gicv2.rs`. -/
def MAX_IRQ_NUMBER : Nat := 1019

/-- GIC handler descriptor: IRQ number, name, and the registered handler,
abstracted as an opaque identifier. -/
structure IRQDescriptor where
  number : Nat
  name : String
  handlerId : Nat
deriving Repr, DecidableEq

/-- What one run of the IRQ dispatcher did: whether the handler table was
consulted, which handler was invoked, and which IRQ number was written to
the End-Of-Interrupt register. -/
structure DispatchEffects where
  lookedUp : Bool
  invoked : Option Nat
  eoiWritten : Option Nat
deriving Repr, DecidableEq

/-- Embedding of `GICv2::handle_pending_irqs` from `gicv2.rs`:
`irq_number` is the value read from the Interrupt Acknowledge Register.  If
it exceeds `MAX_IRQ_NUMBER` the function returns at once; otherwise it
indexes the handler table (a Rust index panic if out of bounds), panics if
the slot is `None`, and otherwise invokes the handler and writes the IRQ
number to the End-Of-Interrupt register. -/
def handlePendingIrqs (irq_number : Nat) (table : List (Option IRQDescriptor)) :
    Except String DispatchEffects :=
  if irq_number > MAX_IRQ_NUMBER then
    Except.ok { lookedUp := false, invoked := none, eoiWritten := none }
  else
    match table.get? irq_number with
    | none => Except.error "index out of bounds"
    | some none => Except.error "No handler registered for IRQ"
    | some (some d) =>
        Except.ok { lookedUp := true, invoked := some d.handlerId,
                    eoiWritten := some irq_number }

/-- Embedding of `GICv2::register_handler` from `gicv2.rs`: index the table
at `d.number` (outer `Option` is `none` on a Rust index panic); if the slot
`is_some()`, return `Err` leaving the table untouched, else write the
descriptor into the slot and return `Ok`. -/
def registerHandler (d : IRQDescriptor) (table : List (Option IRQDescriptor)) :
    Option (Except String Unit × List (Option IRQDescriptor)) :=
  match table.get? d.number with
  | none => none
  | some slot =>
      if slot.isSome then
        some (Except.error "IRQ handler already registered", table)
      else
        some (Except.ok (), table.set d.number (some d))

theorem enumFrom_find_of_lt (l : List Thread) :
    ∀ (n r : Nat) (h : r < l.length),
      (List.enumFrom n l).find? (fun tp => tp.fst == n + r) =
        some (n + r, l.get ⟨r, h⟩) := by
  induction l with
  | nil => intro n r h; simp at h
  | cons x xs ih =>
      intro n r h
      cases r with
      | zero => simp [List.enumFrom, List.find?]
      | succ r' =>
          have hne : (n == n + (r' + 1)) = false := by
            simp only [beq_eq_false_iff_ne]; omega
          have hlt : r' < xs.length := by
            simpa using Nat.lt_of_succ_lt_succ h
          have hrw : n + (r' + 1) = (n + 1) + r' := by omega
          simp only [List.enumFrom, List.find?, hne, List.get]
          rw [hrw]
          exact ih (n + 1) r' hlt

theorem queueNext_eq_get (rand : Nat) (l : List Thread) (h : 0 < l.length) :
    queueNext rand l =
      Except.ok (some (l.get ⟨rand % l.length, Nat.mod_lt rand h⟩)) := by
  have hlen : l.length ≠ 0 := Nat.pos_iff_ne_zero.mp h
  have hfind := enumFrom_find_of_lt l 0 (rand % l.length) (Nat.mod_lt rand h)
  simp only [Nat.zero_add] at hfind
  simp [queueNext, rustRem, hlen, List.enum, hfind]

theorem queueNextExpect_eq_get (rand : Nat) (l : List Thread) (h : 0 < l.length) :
    queueNextExpect rand l =
      Except.ok (l.get ⟨rand % l.length, Nat.mod_lt rand h⟩) := by
  rw [queueNextExpect, queueNext_eq_get rand l h]

theorem lastIdx_foldl_nomatch (p : Nat) (l : List Thread) :
    ∀ (n : Nat) (acc : Option Nat), (∀ u ∈ l, u.pid ≠ p) →
      List.foldl (fun pos it => if it.snd.pid == p then some it.fst else pos) acc
        (List.enumFrom n l) = acc := by
  induction l with
  | nil => intro n acc _; rfl
  | cons x xs ih =>
      intro n acc hno
      have hx : (x.pid == p) = false := by
        simp only [beq_eq_false_iff_ne]
        exact hno x (List.mem_cons_self x xs)
      simp only [List.enumFrom, List.foldl, hx, if_neg Bool.false_ne_true]
      exact ih (n + 1) acc (fun u hu => hno u (List.mem_cons_of_mem x hu))

theorem lastIdx_foldl_last (p : Nat) (t : Thread) (l₂ : List Thread)
    (hp : t.pid = p) (h₂ : ∀ u ∈ l₂, u.pid ≠ p) :
    ∀ (l₁ : List Thread) (n : Nat) (acc : Option Nat),
      List.foldl (fun pos it => if it.snd.pid == p then some it.fst else pos) acc
        (List.enumFrom n (l₁ ++ t :: l₂)) = some (n + l₁.length) := by
  intro l₁
  induction l₁ with
  | nil =>
      intro n acc
      have ht : (t.pid == p) = true := beq_iff_eq.mpr hp
      simp only [List.nil_append, List.enumFrom, List.foldl, ht,
        eq_self_iff_true, if_true]
      rw [lastIdx_foldl_nomatch p l₂ (n + 1) (some n) h₂]
      simp
  | cons x l₁ ih =>
      intro n acc
      have := ih (n + 1) (if (x.pid == p) = true then some n else acc)
      simp only [List.cons_append, List.enumFrom, List.foldl] at *
      rw [show (n + (x :: l₁).length) = (n + 1) + l₁.length by simp; omega]
      split <;> [exact ih (n + 1) (some n); exact ih (n + 1) acc]

theorem lastIdxOf_append_last (p : Nat) (l₁ : List Thread) (t : Thread)
    (l₂ : List Thread) (hp : t.pid = p) (h₂ : ∀ u ∈ l₂, u.pid ≠ p) :
    lastIdxOf p (l₁ ++ t :: l₂) = some l₁.length := by
  have := lastIdx_foldl_last p t l₂ hp h₂ l₁ 0 none
  simpa [lastIdxOf, List.enum] using this

theorem get?_append_len (l₁ : List Thread) (t : Thread) (l₂ : List Thread) :
    (l₁ ++ t :: l₂).get? l₁.length = some t := by
  induction l₁ with
  | nil => rfl
  | cons x l₁ ih => simpa using ih

theorem eraseIdx_append_len (l₁ : List Thread) (t : Thread) (l₂ : List Thread) :
    (l₁ ++ t :: l₂).eraseIdx l₁.length = l₁ ++ l₂ := by
  induction l₁ with
  | nil => rfl
  | cons x l₁ ih => simpa [List.eraseIdx] using ih

theorem queueRemove_append (p : Nat) (l₁ : List Thread) (t : Thread)
    (l₂ : List Thread) (hp : t.pid = p) (h₂ : ∀ u ∈ l₂, u.pid ≠ p) :
    queueRemove p (l₁ ++ t :: l₂) = (some t, l₁ ++ l₂) := by
  rw [queueRemove, lastIdxOf_append_last p l₁ t l₂ hp h₂]
  show ((l₁ ++ t :: l₂).get? l₁.length, (l₁ ++ t :: l₂).eraseIdx l₁.length) =
    (some t, l₁ ++ l₂)
  rw [get?_append_len, eraseIdx_append_len]

theorem getByPid_append_first (p : Nat) (l₁ : List Thread) (t : Thread)
    (l₂ : List Thread) (h₁ : ∀ u ∈ l₁, u.pid ≠ p) (hp : t.pid = p) :
    getByPid p (l₁ ++ t :: l₂) = some t := by
  induction l₁ with
  | nil =>
      have ht : (t.pid == p) = true := beq_iff_eq.mpr hp
      simp [getByPid, List.find?, ht]
  | cons x l₁ ih =>
      have hx : (x.pid == p) = false := by
        simp only [beq_eq_false_iff_ne]
        exact h₁ x (List.mem_cons_self x l₁)
      have := ih (fun u hu => h₁ u (List.mem_cons_of_mem x hu))
      simpa [getByPid, List.find?, hx] using this

theorem getByPid_eq_none (p : Nat) (l : List Thread) (h : ∀ u ∈ l, u.pid ≠ p) :
    getByPid p l = none := by
  rw [getByPid, List.find?_eq_none]
  intro u hu
  simpa using h u hu

theorem updateFirstByPid_append (p : Nat) (f : Thread → Thread)
    (l₁ : List Thread) (t : Thread) (l₂ : List Thread)
    (h₁ : ∀ u ∈ l₁, u.pid ≠ p) (hp : t.pid = p) :
    updateFirstByPid p f (l₁ ++ t :: l₂) = l₁ ++ f t :: l₂ := by
  induction l₁ with
  | nil =>
      have ht : (t.pid == p) = true := beq_iff_eq.mpr hp
      simp [updateFirstByPid, ht]
  | cons x l₁ ih =>
      have hx : (x.pid == p) = false := by
        simp only [beq_eq_false_iff_ne]
        exact h₁ x (List.mem_cons_self x l₁)
      have := ih (fun u hu => h₁ u (List.mem_cons_of_mem x hu))
      simpa [updateFirstByPid, hx] using this

/-- C2 (code behaviour at the failing input): on an empty queue,
`ThreadQueue::next` evaluates `(rng as usize) % len` with `len = 0` and so
panics with Rust's remainder-by-zero message instead of returning `None`. -/
theorem c2_next_empty_panics (rand : Nat) :
    queueNext rand [] =
      Except.error "attempt to calculate the remainder with a divisor of zero" := by
  rfl

/-- C6: on a non-empty queue of length `n`, `next()` returns `Some` of the
element at index `rand % n` in insertion order, where `rand` is the draw of
the per-call reseeded PRNG; for `n = 1` this is the unique element. -/
theorem c6_next_nonempty (rand : Nat) (l : List Thread) (h : 0 < l.length) :
    queueNext rand l =
      Except.ok (some (l.get ⟨rand % l.length, Nat.mod_lt rand h⟩)) :=
  queueNext_eq_get rand l h

/-- Witness for C6: a one-element queue returns that element for draw 7. -/
theorem c6_next_nonempty_witness :
    0 < ([threadNew 1 4096 65536] : List Thread).length ∧
    queueNext 7 [threadNew 1 4096 65536] =
      Except.ok (some (threadNew 1 4096 65536)) :=
  ⟨by decide, by rw [c6_next_nonempty 7 [threadNew 1 4096 65536] (by decide)]; rfl⟩

/-- C1: if `CURRENT[core] = Some(p)` and a thread with PID `p` is in
`RUNNING[core]`, then `reschedule_from_context` succeeds and afterwards the
TCB of `p` holds the entry-time live frame in the scheduler-relevant subset,
`CURRENT[core] = Some(q.pid)` for the thread `q` selected by `next()`, the
live frame equals `q`'s saved frame in the same subset, and both `p` and `q`
are still members of `RUNNING[core]`. -/
theorem c1_reschedule_from_context (core : Fin 4) (rand : Nat)
    (ec : ExceptionContext) (st : KState) (p : Nat) (t : Thread)
    (l₁ l₂ : List Thread)
    (hcur : st.current core = some p)
    (hq : st.running core = l₁ ++ t :: l₂)
    (hp : t.pid = p)
    (h₁ : ∀ u ∈ l₁, u.pid ≠ p) :
    ∃ (st' : KState) (ec' : ExceptionContext) (q : Thread),
      rescheduleFromContext core rand ec st = Except.ok (st', ec') ∧
      (∃ t', getByPid p (st'.running core) = some t' ∧
        frameSubset t'.context = frameSubset ec) ∧
      (st'.running core).get? (rand % (st'.running core).length) = some q ∧
      st'.current core = some q.pid ∧
      frameSubset ec' = frameSubset q.context ∧
      (∃ u ∈ st'.running core, u.pid = p) ∧ q ∈ st'.running core := by
  have hgb : getByPid p (st.running core) = some t := by
    rw [hq]; exact getByPid_append_first p l₁ t l₂ h₁ hp
  have hupd : updateFirstByPid p
      (fun u => { u with context := storeContext ec u.context })
      (st.running core) =
      l₁ ++ { t with context := storeContext ec t.context } :: l₂ := by
    rw [hq]
    exact updateFirstByPid_append p _ l₁ t l₂ h₁ hp
  have hlen : 0 <
      (l₁ ++ { t with context := storeContext ec t.context } :: l₂).length := by
    simp
  have hnext := queueNextExpect_eq_get rand
    (l₁ ++ { t with context := storeContext ec t.context } :: l₂) hlen
  have hres : rescheduleFromContext core rand ec st =
      Except.ok
        ({ st with
            running := Function.update st.running core
              (l₁ ++ { t with context := storeContext ec t.context } :: l₂)
            current := Function.update st.current core
              (some ((l₁ ++ { t with context := storeContext ec t.context } :: l₂).get
                ⟨rand % (l₁ ++ { t with context := storeContext ec t.context } :: l₂).length,
                  Nat.mod_lt rand hlen⟩).pid) },
          storeContext
            ((l₁ ++ { t with context := storeContext ec t.context } :: l₂).get
              ⟨rand % (l₁ ++ { t with context := storeContext ec t.context } :: l₂).length,
                Nat.mod_lt rand hlen⟩).context ec) := by
    simp only [rescheduleFromContext, hcur, hgb, hupd, hnext]
  refine ⟨_, _,
    (l₁ ++ { t with context := storeContext ec t.context } :: l₂).get
      ⟨rand % (l₁ ++ { t with context := storeContext ec t.context } :: l₂).length,
        Nat.mod_lt rand hlen⟩,
    hres, ?_, ?_, ?_, ?_, ?_, ?_⟩
  · refine ⟨{ t with context := storeContext ec t.context }, ?_, ?_⟩
    · simp only [Function.update_same]
      exact getByPid_append_first p l₁ _ l₂ h₁ hp
    · simp [storeContext, frameSubset]
  · simp only [Function.update_same]
    exact List.get?_eq_get (Nat.mod_lt rand hlen)
  · simp only [Function.update_same]
  · simp [storeContext, frameSubset]
  · simp only [Function.update_same]
    exact ⟨{ t with context := storeContext ec t.context },
      List.mem_append_right l₁ (List.mem_cons_self _ _), hp⟩
  · simp only [Function.update_same]
    exact List.get_mem _ _ _

/-- Witness for C1 on core 0 with two enqueued threads and draw 1. -/
theorem c1_reschedule_from_context_witness :
    (let st : KState :=
      { running := fun _ => [threadNew 1 4096 65536, threadNew 2 8192 131072]
        sleeping := []
        current := fun _ => some 1 };
    st.current 0 = some 1 ∧
    st.running 0 = [] ++ threadNew 1 4096 65536 :: [threadNew 2 8192 131072] ∧
    (threadNew 1 4096 65536).pid = 1 ∧
    (∀ u ∈ ([] : List Thread), u.pid ≠ 1) ∧
    ∃ (st' : KState) (ec' : ExceptionContext) (q : Thread),
      rescheduleFromContext 0 1 (makeContext 0 0) st = Except.ok (st', ec') ∧
      (∃ t', getByPid 1 (st'.running 0) = some t' ∧
        frameSubset t'.context = frameSubset (makeContext 0 0)) ∧
      (st'.running 0).get? (1 % (st'.running 0).length) = some q ∧
      st'.current 0 = some q.pid ∧
      frameSubset ec' = frameSubset q.context ∧
      (∃ u ∈ st'.running 0, u.pid = 1) ∧ q ∈ st'.running 0) :=
  ⟨rfl, rfl, rfl, by simp,
    c1_reschedule_from_context 0 1 (makeContext 0 0) _ 1
      (threadNew 1 4096 65536) [] [threadNew 2 8192 131072]
      rfl rfl rfl (by simp)⟩

theorem spsrIBitStore_testBit (masked : Bool) (c : ExceptionContext) :
    ((spsrIBitStore masked c).spsr_el1.testBit 7 = true) ↔ masked = false := by
  cases masked with
  | false =>
      have h128 : Nat.testBit 0x80 7 = true := by decide
      simp [spsrIBitStore, Nat.testBit_lor, h128]
  | true =>
      have hM : Nat.testBit 0b11111111111111111111111101111111 7 = false := by
        decide
      simp [spsrIBitStore, Nat.testBit_land, hM]

/-- Concrete two-thread state used to exercise the voluntary-switch paths. -/
def voluntaryExState : KState :=
  { running := fun _ => [threadNew 1 4096 65536, threadNew 2 8192 131072]
    sleeping := []
    current := fun _ => some 1 }

/-- The I-bit of the spsr stored for PID 1 by a `reschedule()` call on core 0
with draw 0 and `is_local_irq_masked() = true` in `voluntaryExState`. -/
def rescheduleStoredIBit : Option Bool :=
  match rescheduleModel 0 0 true voluntaryExState with
  | Except.ok st => (getByPid 1 (st.running 0)).map
      (fun u => u.context.spsr_el1.testBit 7)
  | Except.error _ => none

/-- C3 counterexample: with local IRQs masked at the call site
(`masked = true`), the spsr stored by `reschedule()` has the I-bit clear —
the claim that the stored I-bit is set if and only if IRQs were masked is
false at this input. -/
theorem c3_counterexample :
    rescheduleStoredIBit = some false ∧ rescheduleStoredIBit ≠ some true := by
  refine ⟨by decide, ?_⟩
  intro h
  rw [show rescheduleStoredIBit = some false by decide] at h
  simp at h

/-- C3 (amended): for a voluntary switch via `reschedule()` or `sleep()`,
the I-bit (0x80) of the spsr stored in the calling thread's saved frame
before `__switch_to` is set if and only if local IRQs were NOT masked at the
call site. -/
theorem c3_ibit_reflects_unmasked (core : Fin 4) (rand : Nat) (masked : Bool)
    (st : KState) (p : Nat) (t : Thread) (l₁ l₂ : List Thread)
    (hcur : st.current core = some p)
    (hq : st.running core = l₁ ++ t :: l₂)
    (hp : t.pid = p)
    (h₁ : ∀ u ∈ l₁, u.pid ≠ p)
    (h₂ : ∀ u ∈ l₂, u.pid ≠ p)
    (hsl : ∀ u ∈ st.sleeping, u.pid ≠ p)
    (hne : l₁ ++ l₂ ≠ []) :
    (∃ st', rescheduleModel core rand masked st = Except.ok st' ∧
      ∃ t', getByPid p (st'.running core) = some t' ∧
        ((t'.context.spsr_el1.testBit 7 = true) ↔ masked = false)) ∧
    (∃ st' tr, sleepModel core rand masked st = Except.ok (st', tr) ∧
      ∃ t', getByPid p st'.sleeping = some t' ∧
        ((t'.context.spsr_el1.testBit 7 = true) ↔ masked = false)) := by
  constructor
  · have hlen0 : 0 < (st.running core).length := by rw [hq]; simp
    have hnext := queueNextExpect_eq_get rand (st.running core) hlen0
    have hgb : getByPid p (st.running core) = some t := by
      rw [hq]; exact getByPid_append_first p l₁ t l₂ h₁ hp
    have hupd : updateFirstByPid p
        (fun u => { u with context := spsrIBitStore masked u.context })
        (st.running core) =
        l₁ ++ { t with context := spsrIBitStore masked t.context } :: l₂ := by
      rw [hq]
      exact updateFirstByPid_append p _ l₁ t l₂ h₁ hp
    refine ⟨_, by simp only [rescheduleModel, hnext, hcur, hgb, hupd]; rfl, ?_⟩
    refine ⟨{ t with context := spsrIBitStore masked t.context }, ?_, ?_⟩
    · simp only [Function.update_same]
      exact getByPid_append_first p l₁ _ l₂ h₁ hp
    · exact spsrIBitStore_testBit masked t.context
  · have hrem : queueRemove p (st.running core) = (some t, l₁ ++ l₂) := by
      rw [hq]; exact queueRemove_append p l₁ t l₂ hp h₂
    have hlen2 : 0 < (l₁ ++ l₂).length := List.length_pos.mpr hne
    have hnext2 := queueNextExpect_eq_get rand (l₁ ++ l₂) hlen2
    have hfind : getByPid p
        (queueAdd { t with context := spsrIBitStore masked t.context }
          st.sleeping) =
        some { t with context := spsrIBitStore masked t.context } := by
      rw [queueAdd]
      exact getByPid_append_first p st.sleeping _ [] hsl hp
    refine ⟨_, _, by simp only [sleepModel, hcur, hrem, hnext2, hfind]; rfl, ?_⟩
    exact ⟨{ t with context := spsrIBitStore masked t.context }, hfind,
      spsrIBitStore_testBit masked t.context⟩

/-- Witness for C3 (amended) on core 0 with IRQs unmasked at the call. -/
theorem c3_ibit_reflects_unmasked_witness :
    (voluntaryExState.current 0 = some 1 ∧
     voluntaryExState.running 0 =
       [] ++ threadNew 1 4096 65536 :: [threadNew 2 8192 131072] ∧
     (threadNew 1 4096 65536).pid = 1 ∧
     ([] ++ [threadNew 2 8192 131072] : List Thread) ≠ []) ∧
    ((∃ st', rescheduleModel 0 5 false voluntaryExState = Except.ok st' ∧
      ∃ t', getByPid 1 (st'.running 0) = some t' ∧
        ((t'.context.spsr_el1.testBit 7 = true) ↔ false = false)) ∧
     (∃ st' tr, sleepModel 0 5 false voluntaryExState = Except.ok (st', tr) ∧
      ∃ t', getByPid 1 st'.sleeping = some t' ∧
        ((t'.context.spsr_el1.testBit 7 = true) ↔ false = false))) :=
  ⟨⟨rfl, rfl, rfl, by simp⟩,
    c3_ibit_reflects_unmasked 0 5 false voluntaryExState 1
      (threadNew 1 4096 65536) [] [threadNew 2 8192 131072]
      rfl rfl rfl (by decide) (by decide) (by decide) (by decide)⟩

/-- The event trace of a `sleep()` call on core 0 with draw 0 and IRQs
masked, from `voluntaryExState`. -/
def sleepExTrace : Option (List SleepEv) :=
  match sleepModel 0 0 true voluntaryExState with
  | Except.ok (_, tr) => some tr
  | Except.error _ => none

/-- C4 counterexample: in the concrete run the successor is selected
(`selectNext`, position 1) before the sleeping thread is added to
`SLEEPING` (`addSleep`, position 2); the claim that the move of `p` out of
`RUNNING[core]` into `SLEEPING` completes before the successor is selected
is false on this input. -/
theorem c4_counterexample :
    sleepExTrace = some
      [SleepEv.removeRun 1, SleepEv.selectNext 2, SleepEv.addSleep 1,
       SleepEv.setCurrent 2, SleepEv.switchTo 1 2] ∧
    ¬ ([SleepEv.removeRun 1, SleepEv.selectNext 2, SleepEv.addSleep 1,
        SleepEv.setCurrent 2, SleepEv.switchTo 1 2].indexOf (SleepEv.addSleep 1) <
       [SleepEv.removeRun 1, SleepEv.selectNext 2, SleepEv.addSleep 1,
        SleepEv.setCurrent 2, SleepEv.switchTo 1 2].indexOf (SleepEv.selectNext 2)) := by
  exact ⟨by decide, by decide⟩

/-- C4 (amended): after `sleep()` by thread `p` on core `c`, `p` is in
`SLEEPING`, `p` is no longer in `RUNNING[c]`, and `CURRENT[c]` is the PID of
the successor `q` selected by `next()` from `RUNNING[c]`; `p` is removed
from `RUNNING[c]` before the successor is selected, while the insertion of
`p` into `SLEEPING` happens after the selection (and before `CURRENT[c]` is
updated), as the event trace records. -/
theorem c4_sleep_moves_thread (core : Fin 4) (rand : Nat) (masked : Bool)
    (st : KState) (p : Nat) (t : Thread) (l₁ l₂ : List Thread)
    (hcur : st.current core = some p)
    (hq : st.running core = l₁ ++ t :: l₂)
    (hp : t.pid = p)
    (h₁ : ∀ u ∈ l₁, u.pid ≠ p)
    (h₂ : ∀ u ∈ l₂, u.pid ≠ p)
    (hsl : ∀ u ∈ st.sleeping, u.pid ≠ p)
    (hne : l₁ ++ l₂ ≠ []) :
    ∃ (st' : KState) (tr : List SleepEv) (q : Thread),
      sleepModel core rand masked st = Except.ok (st', tr) ∧
      (∃ u ∈ st'.sleeping, u.pid = p) ∧
      getByPid p (st'.running core) = none ∧
      (st'.running core).get? (rand % (st'.running core).length) = some q ∧
      st'.current core = some q.pid ∧
      tr = [SleepEv.removeRun p, SleepEv.selectNext q.pid, SleepEv.addSleep p,
            SleepEv.setCurrent q.pid, SleepEv.switchTo p q.pid] := by
  have hrem : queueRemove p (st.running core) = (some t, l₁ ++ l₂) := by
    rw [hq]; exact queueRemove_append p l₁ t l₂ hp h₂
  have hlen2 : 0 < (l₁ ++ l₂).length := List.length_pos.mpr hne
  have hnext2 := queueNextExpect_eq_get rand (l₁ ++ l₂) hlen2
  have hfind : getByPid p
      (queueAdd { t with context := spsrIBitStore masked t.context }
        st.sleeping) =
      some { t with context := spsrIBitStore masked t.context } := by
    rw [queueAdd]
    exact getByPid_append_first p st.sleeping _ [] hsl hp
  refine ⟨_, _, (l₁ ++ l₂).get ⟨rand % (l₁ ++ l₂).length, Nat.mod_lt rand hlen2⟩,
    by simp only [sleepModel, hcur, hrem, hnext2, hfind]; rfl, ?_, ?_, ?_, ?_, ?_⟩
  · exact ⟨{ t with context := spsrIBitStore masked t.context },
      List.mem_append_right st.sleeping (List.mem_cons_self _ _), hp⟩
  · simp only [Function.update_same]
    refine getByPid_eq_none p (l₁ ++ l₂) ?_
    intro u hu
    rcases List.mem_append.mp hu with h | h
    · exact h₁ u h
    · exact h₂ u h
  · simp only [Function.update_same]
    exact List.get?_eq_get (Nat.mod_lt rand hlen2)
  · simp only [Function.update_same]
  · rfl

/-- Witness for C4 (amended) on core 0 with two enqueued threads. -/
theorem c4_sleep_moves_thread_witness :
    (voluntaryExState.current 0 = some 1 ∧
     voluntaryExState.running 0 =
       [] ++ threadNew 1 4096 65536 :: [threadNew 2 8192 131072] ∧
     (threadNew 1 4096 65536).pid = 1 ∧
     ([] ++ [threadNew 2 8192 131072] : List Thread) ≠ []) ∧
    ∃ (st' : KState) (tr : List SleepEv) (q : Thread),
      sleepModel 0 3 false voluntaryExState = Except.ok (st', tr) ∧
      (∃ u ∈ st'.sleeping, u.pid = 1) ∧
      getByPid 1 (st'.running 0) = none ∧
      (st'.running 0).get? (3 % (st'.running 0).length) = some q ∧
      st'.current 0 = some q.pid ∧
      tr = [SleepEv.removeRun 1, SleepEv.selectNext q.pid, SleepEv.addSleep 1,
            SleepEv.setCurrent q.pid, SleepEv.switchTo 1 q.pid] :=
  ⟨⟨rfl, rfl, rfl, by decide⟩,
    c4_sleep_moves_thread 0 3 false voluntaryExState 1
      (threadNew 1 4096 65536) [] [threadNew 2 8192 131072]
      rfl rfl rfl (by decide) (by decide) (by decide) (by decide)⟩

/-- C5: storing any frame `F` into a TCB's saved frame and then restoring
from that TCB into any frame yields a frame equal to `F` in the
scheduler-preserved subset (elr, esr, spsr, the 30 GPRs, lr, sp_el0). -/
theorem c5_store_restore_roundtrip (F tFrame Fout : ExceptionContext) :
    frameSubset (storeContext (storeContext F tFrame) Fout) = frameSubset F := by
  simp [storeContext, frameSubset]

/-- C10: `store_context(s, d)` writes exactly `elr_el1`, `esr_el1`,
`spsr_el1`, `gpr`, `lr` and `sp_el0` of `d` (each taking the value of the
corresponding field of `s`), leaves `d._res_sp` unchanged, and does not
modify `s` in any field. -/
theorem c10_store_context_frame_effect (s d : ExceptionContext) :
    (storeContextMut (s, d)).1 = s ∧
    (storeContextMut (s, d)).2.elr_el1 = s.elr_el1 ∧
    (storeContextMut (s, d)).2.esr_el1 = s.esr_el1 ∧
    (storeContextMut (s, d)).2.spsr_el1 = s.spsr_el1 ∧
    (storeContextMut (s, d)).2.gpr = s.gpr ∧
    (storeContextMut (s, d)).2.lr = s.lr ∧
    (storeContextMut (s, d)).2.sp_el0 = s.sp_el0 ∧
    (storeContextMut (s, d)).2._res_sp = d._res_sp := by
  refine ⟨rfl, rfl, rfl, rfl, rfl, rfl, rfl, rfl⟩

/-- C7: a value read from the Interrupt Acknowledge Register above
`MAX_IRQ_NUMBER` (1019) makes `handle_pending_irqs` return immediately with
no table lookup, no handler invocation and no End-Of-Interrupt write; a
value at most 1019 proceeds to the table lookup. -/
theorem c7_spurious_irq_guard (irq : Nat) (table : List (Option IRQDescriptor)) :
    (MAX_IRQ_NUMBER < irq →
      handlePendingIrqs irq table =
        Except.ok { lookedUp := false, invoked := none, eoiWritten := none }) ∧
    (irq ≤ MAX_IRQ_NUMBER →
      ∀ eff, handlePendingIrqs irq table = Except.ok eff →
        eff.lookedUp = true) := by
  constructor
  · intro h
    simp [handlePendingIrqs, h]
  · intro h eff heq
    have hnot : ¬ (irq > MAX_IRQ_NUMBER) := not_lt.mpr h
    rcases hg : table[irq]? with _ | (_ | d) <;>
      simp [handlePendingIrqs, hnot, hg] at heq
    rw [← heq]

/-- Witness for C7: IAR = 1023 is dropped with no effects, IAR = 1 reaches
the table lookup. -/
theorem c7_spurious_irq_guard_witness :
    MAX_IRQ_NUMBER < 1023 ∧
    handlePendingIrqs 1023 [none, some ⟨1, "timer", 5⟩] =
      Except.ok { lookedUp := false, invoked := none, eoiWritten := none } ∧
    1 ≤ MAX_IRQ_NUMBER ∧
    DispatchEffects.lookedUp
      { lookedUp := true, invoked := some 5, eoiWritten := some 1 } = true :=
  ⟨by decide,
   (c7_spurious_irq_guard 1023 [none, some ⟨1, "timer", 5⟩]).1 (by decide),
   by decide,
   (c7_spurious_irq_guard 1 [none, some ⟨1, "timer", 5⟩]).2 (by decide)
     { lookedUp := true, invoked := some 5, eoiWritten := some 1 } (by rfl)⟩

/-- C8: `register_handler(d)` with the slot for `d.number` occupied returns
an error and leaves the table (hence the previously registered entry)
unchanged; with the slot empty it succeeds and writes `d` into the slot. -/
theorem c8_register_handler (d : IRQDescriptor)
    (table : List (Option IRQDescriptor)) (h : d.number < table.length) :
    ((table.get ⟨d.number, h⟩).isSome →
      registerHandler d table =
        some (Except.error "IRQ handler already registered", table)) ∧
    (table.get ⟨d.number, h⟩ = none →
      registerHandler d table =
        some (Except.ok (), table.set d.number (some d)) ∧
      (table.set d.number (some d)).get? d.number = some (some d)) := by
  have hg : table[d.number]? = some (table.get ⟨d.number, h⟩) := by
    rw [← List.get?_eq_getElem?]
    exact List.get?_eq_get h
  constructor
  · intro hs
    rw [List.get_eq_getElem] at hs
    rcases Option.isSome_iff_exists.mp hs with ⟨a, ha⟩
    simp [registerHandler, hg, ha]
  · intro hn
    have hn' : table[d.number] = none := by
      rw [← List.get_eq_getElem table ⟨d.number, h⟩]
      exact hn
    constructor
    · simp [registerHandler, hg, hn']
    · have hlen : d.number < (table.set d.number (some d)).length := by
        simpa using h
      rw [List.get?_eq_get hlen, List.get_set_eq]

/-- Witness for C8: registering IRQ 0 twice fails leaving the first entry,
registering the free slot 1 succeeds and writes it. -/
theorem c8_register_handler_witness :
    (⟨0, "c", 3⟩ : IRQDescriptor).number <
      ([some ⟨0, "a", 1⟩, none] : List (Option IRQDescriptor)).length ∧
    registerHandler ⟨0, "c", 3⟩ [some ⟨0, "a", 1⟩, none] =
      some (Except.error "IRQ handler already registered",
            [some ⟨0, "a", 1⟩, none]) ∧
    registerHandler ⟨1, "b", 2⟩ [some ⟨0, "a", 1⟩, none] =
      some (Except.ok (),
            ([some ⟨0, "a", 1⟩, none] :
              List (Option IRQDescriptor)).set 1 (some ⟨1, "b", 2⟩)) ∧
    (([some ⟨0, "a", 1⟩, none] :
        List (Option IRQDescriptor)).set 1 (some ⟨1, "b", 2⟩)).get? 1 =
      some (some ⟨1, "b", 2⟩) :=
  ⟨by decide,
   (c8_register_handler ⟨0, "c", 3⟩ [some ⟨0, "a", 1⟩, none] (by decide)).1
     (by decide),
   ((c8_register_handler ⟨1, "b", 2⟩ [some ⟨0, "a", 1⟩, none] (by decide)).2
     (by decide)).1,
   ((c8_register_handler ⟨1, "b", 2⟩ [some ⟨0, "a", 1⟩, none] (by decide)).2
     (by decide)).2⟩

/-- C9: the frame of the thread produced by `Thread::new(entry_pc)` has
`lr = elr = entry_pc`, `sp_el0 = stack_base + STACK_SIZE` with
`STACK_SIZE = 8192`, `spsr = 0x364`, `esr = 0` and all 30 GPRs zero
(whenever the stack-pointer addition does not wrap `u64`). -/
theorem c9_thread_new_frame (pid entry_pc stackBase : Nat)
    (h : stackBase + STACK_SIZE < 2 ^ 64) :
    (threadNew pid entry_pc stackBase).context.lr = entry_pc ∧
    (threadNew pid entry_pc stackBase).context.elr_el1 = entry_pc ∧
    (threadNew pid entry_pc stackBase).context.sp_el0 = stackBase + STACK_SIZE ∧
    STACK_SIZE = 8192 ∧
    (threadNew pid entry_pc stackBase).context.spsr_el1 = 0x364 ∧
    (threadNew pid entry_pc stackBase).context.esr_el1 = 0 ∧
    (threadNew pid entry_pc stackBase).context.gpr = List.replicate 30 0 := by
  refine ⟨rfl, rfl, ?_, rfl, rfl, rfl, rfl⟩
  simp only [threadNew, makeContext, STACK_SIZE] at *
  exact Nat.mod_eq_of_lt h

/-- Witness for C9 at `pid = 1`, `entry_pc = 4096`, `stackBase = 65536`. -/
theorem c9_thread_new_frame_witness :
    65536 + STACK_SIZE < 2 ^ 64 ∧
    ((threadNew 1 4096 65536).context.lr = 4096 ∧
     (threadNew 1 4096 65536).context.elr_el1 = 4096 ∧
     (threadNew 1 4096 65536).context.sp_el0 = 65536 + STACK_SIZE ∧
     STACK_SIZE = 8192 ∧
     (threadNew 1 4096 65536).context.spsr_el1 = 0x364 ∧
     (threadNew 1 4096 65536).context.esr_el1 = 0 ∧
     (threadNew 1 4096 65536).context.gpr = List.replicate 30 0) :=
  ⟨by decide, c9_thread_new_frame 1 4096 65536 (by decide)⟩
